import Mathlib

/-!
Verification development for the creative-design skin-analysis backend
(src/app/main.py and src/app/models.py).

The embedding is shallow: each FastAPI route handler of src/app/main.py
becomes a Lean function from its request inputs and a server state to a
pair of (Except HTTPException response) and the successor state.  The
relational tables become lists of records, the upload directory becomes
the list of file paths written so far, machine randomness (uuid4().hex)
and the server clock (func.now()) become explicit parameters, and the
single outbound call to the AI server becomes an oracle argument of type
Except String AIResponse (error carries the transport-failure cause).
A counter ai_requests in the state is bumped exactly where main.py
executes requests.post, so "no request was issued to the AI server" is
the statement that the counter is unchanged.

Timestamps are natural numbers; datetime.isoformat is an order-preserving
injective rendering of a timestamp, so result entries carry the numeric
timestamp directly.  Scores are rationals: the service treats the AI
ratio values as opaque numbers (no arithmetic is ever performed on them),
so any numeric carrier with decidable equality is faithful.
-/

namespace CreativeServer

/-! ### Path helpers (embedding of pathlib operations used by main.py)

Python Path(p).name is the final path component with trailing slashes
stripped; Path(p).suffix is the part of the name from its last dot,
empty when the name has no dot, when the only dot is the leading
character, or when the dot is the final character. -/

def pathNameChars (s : List Char) : List Char :=
  ((s.reverse.dropWhile (fun c => c == '/')).takeWhile (fun c => c != '/')).reverse

def pathName (s : String) : String :=
  ⟨pathNameChars s.data⟩

def suffixChars (name : List Char) : List Char :=
  let rev := name.reverse
  let pre := rev.takeWhile (fun c => c != '.')
  if pre.length = rev.length then []
  else if pre.length = 0 then []
  else if pre.length = rev.length - 1 then []
  else '.' :: pre.reverse

def pathSuffix (s : String) : String :=
  ⟨suffixChars (pathNameChars s.data)⟩

/-- Python str.lower() on the ASCII range (filename extensions). -/
def toLowerStr (s : String) : String := ⟨s.data.map Char.toLower⟩

/-! ### Data model -/

/-- users table, src/app/models.py lines 5-10. -/
structure User where
  id : Nat
  name : Option String
  created_at : Nat
deriving DecidableEq, Repr

/-- images table, src/app/models.py lines 12-18. -/
structure Image where
  id : Nat
  user_id : Nat
  file_path : String
  uploaded_at : Nat
deriving DecidableEq, Repr

/-- Modelled from the spec: the denormalized analysis_results schema of
the final iteration (spec section 3), whose model class is missing from
src/ — src/app/models.py still holds the earlier normalized variant,
while the analyze handler of src/app/main.py (lines 128-150 and 186-198)
reads and constructs exactly this denormalized shape: the image
identifier as the key, five numeric feature scores and five overlay URL
references.  The analyze flow always writes all ten values, so the
fields record the written values directly. -/
structure AnalysisResult where
  image_id : Nat
  acne : ℚ
  hemo : ℚ
  mela : ℚ
  pore : ℚ
  wrinkle : ℚ
  overlay_acne : String
  overlay_hemo : String
  overlay_mela : String
  overlay_pore : String
  overlay_wrinkle : String
  created_at : Nat
deriving DecidableEq, Repr

/-- analysis_results table as actually declared in src/app/models.py
lines 20-29: the earlier normalized variant, one row per (image, item)
pair with a surrogate primary key and
UniqueConstraint("image_id", "item"). -/
structure AnalysisRow where
  id : Nat
  image_id : Nat
  item : String
  score : ℚ
  created_at : Nat
deriving DecidableEq, Repr

/-- The uniqueness constraint of src/app/models.py line 29: no two rows
agree on both image_id and item. -/
def NormalizedUnique (rows : List AnalysisRow) : Prop :=
  rows.Pairwise (fun a b => ¬(a.image_id = b.image_id ∧ a.item = b.item))

/-- Database-level enforcement of the normalized unique constraint:
inserting a row that duplicates an existing (image_id, item) pair is
rejected (none = constraint violation surfaced as a conflict). -/
def insertRow (rows : List AnalysisRow) (r : AnalysisRow) : Option (List AnalysisRow) :=
  if rows.any (fun q => q.image_id == r.image_id && q.item == r.item) then none
  else some (rows ++ [r])

/-- Modelled from the spec: in the final denormalized schema the image
identifier is itself the primary key of analysis_results (spec section
3), so the database rejects a second row for the same image as a
conflict (none = primary-key violation). -/
def insertResult (rows : List AnalysisResult) (r : AnalysisResult) :
    Option (List AnalysisResult) :=
  if rows.any (fun q => q.image_id == r.image_id) then none
  else some (rows ++ [r])

/-! ### Server state and configuration -/

/-- The mutable world visible to the handlers: the three tables, the set
of file paths written under the storage root, and the number of requests
issued to the AI server so far. -/
structure ServerState where
  users : List User
  images : List Image
  analysisResults : List AnalysisResult
  files : List String
  ai_requests : Nat
deriving DecidableEq, Repr

/-- Environment configuration, src/app/main.py lines 30-33. -/
structure Config where
  ai_server_url : String
  server_base_url : String
deriving DecidableEq, Repr

/-- Storage root, src/app/main.py line 21 (Path(__file__).parent / "uploads"). -/
def UPLOAD_DIR : String := "uploads"

/-- Autoincrement primary-key generation: one more than the largest id
in use. -/
def nextId (ids : List Nat) : Nat := ids.foldr max 0 + 1

structure HTTPException where
  status_code : Nat
  detail : String
deriving DecidableEq, Repr

/-! ### AI server wire data (spec section 4.3, scores+overlays shape) -/

/-- One feature entry of the AI response: a numeric ratio and a
base64-encoded overlay image. -/
structure AIFeature where
  ratio : ℚ
  overlay : String
deriving DecidableEq, Repr

/-- The parsed JSON object returned by the AI server: an ordered mapping
from feature name to its entry. -/
def AIResponse := List (String × AIFeature)

/-- Python dict lookup d[k]: some value when the key is present, none
standing for the KeyError path. -/
def dictGet {α : Type} (l : List (String × α)) (k : String) : Option α :=
  (l.find? (fun kv => kv.1 == k)).map (fun kv => kv.2)

/-- Fixed task order, src/app/main.py line 169. -/
def tasks : List String := ["acne", "hemo", "mela", "pore", "wrinkle"]

/-! ### Handlers -/

/-- POST /api/v1/users, src/app/main.py lines 61-67. -/
def create_user (name : Option String) (now : Nat) (st : ServerState) :
    Except HTTPException Nat × ServerState :=
  let uid := nextId (st.users.map (fun u => u.id))
  (.ok uid, { st with users := st.users ++ [⟨uid, name, now⟩] })

structure UploadResponse where
  image_id : Nat
  image_url : String
deriving DecidableEq, Repr

def ALLOWED_EXTS : List String := [".jpg", ".jpeg", ".png"]

/-- The f-string of src/app/main.py line 87: collision-resistant stored
filename built from the owner id, uuid4().hex and the extension. -/
def safeNameOf (user_id : Nat) (hex ext : String) : String :=
  "user" ++ Nat.repr user_id ++ "_" ++ hex ++ ext

/-- POST /api/v1/upload, src/app/main.py lines 70-105.  hex stands for
uuid4().hex (the random 128-bit hex string); the uploaded bytes are
abstracted to the path written, and the local file write is modelled as
succeeding (its failure branch raises a 500 that no claim concerns). -/
def upload_image (cfg : Config) (user_id : Nat) (filename : String)
    (hex : String) (now : Nat) (st : ServerState) :
    Except HTTPException UploadResponse × ServerState :=
  if (st.users.find? (fun u => u.id == user_id)).isNone then
    (.error ⟨404, "User not found"⟩, st)
  else
    let ext := toLowerStr (pathSuffix filename)
    if ext ∉ ALLOWED_EXTS then
      (.error ⟨400, "Invalid file format"⟩, st)
    else
      let safe_name := safeNameOf user_id hex ext
      let save_path := UPLOAD_DIR ++ "/" ++ safe_name
      let image_id := nextId (st.images.map (fun i => i.id))
      (.ok ⟨image_id, cfg.server_base_url ++ "/static/" ++ safe_name⟩,
       { st with
           files := st.files ++ [save_path]
           images := st.images ++ [⟨image_id, user_id, save_path, now⟩] })

/-- save_overlay_file, src/app/main.py lines 47-58.  hex stands for
uuid4().hex; base64 decoding and the file write are modelled as
succeeding (their failure branch raises a 500 that no claim concerns).
Returns the public URL and records the written path. -/
def save_overlay_file (cfg : Config) (user_id image_id : Nat)
    (task hex : String) (st : ServerState) : String × ServerState :=
  let filename :=
    "user" ++ Nat.repr user_id ++ "_" ++ Nat.repr image_id ++ "_" ++ task
      ++ "_" ++ hex ++ ".png"
  (cfg.server_base_url ++ "/static/" ++ filename,
   { st with files := st.files ++ [UPLOAD_DIR ++ "/" ++ filename] })

/-- The for-loop of src/app/main.py lines 175-183: for each task in
order, look up ai_res[t] (KeyError on a missing key surfaces as the
framework 500 Internal Server Error), record the ratio as the score,
save the overlay file, and collect the overlay URL.  Overlay files
written before a failing lookup remain written. -/
def processTasks (cfg : Config) (user_id image_id : Nat)
    (rhex : String → String) (ai_res : AIResponse) :
    List String → ServerState →
      Except HTTPException (List (String × ℚ) × List (String × String)) × ServerState
  | [], st => (.ok ([], []), st)
  | t :: ts, st =>
    match dictGet ai_res t with
    | none => (.error ⟨500, "Internal Server Error"⟩, st)
    | some feat =>
      match feat with
      | ⟨rv, _⟩ =>
        let saved := save_overlay_file cfg user_id image_id t (rhex t) st
        match processTasks cfg user_id image_id rhex ai_res ts saved.2 with
        | (.error e, st2) => (.error e, st2)
        | (.ok (ss, os), st2) => (.ok ((t, rv) :: ss, (t, saved.1) :: os), st2)

/-- The dictionary lookups of src/app/main.py lines 186-198 that build
the AnalysisResult row from the collected scores and overlays; a missing
key would be a KeyError (none). -/
def buildRow (image_id now : Nat) (scores : List (String × ℚ))
    (overlays : List (String × String)) : Option AnalysisResult :=
  match dictGet scores "acne", dictGet scores "hemo", dictGet scores "mela",
        dictGet scores "pore", dictGet scores "wrinkle",
        dictGet overlays "acne", dictGet overlays "hemo", dictGet overlays "mela",
        dictGet overlays "pore", dictGet overlays "wrinkle" with
  | some a, some h, some m, some p, some w,
    some oa, some oh, some om, some op, some ow =>
      some ⟨image_id, a, h, m, p, w, oa, oh, om, op, ow, now⟩
  | _, _, _, _, _, _, _, _, _, _ => none

structure AnalyzeResponse where
  image_id : Nat
  scores : List (String × ℚ)
  overlays : List (String × String)
deriving DecidableEq, Repr

/-- The response built from a stored AnalysisResult row,
src/app/main.py lines 134-150 (Python dicts preserve insertion order, so
a JSON object is an ordered association list). -/
def storedResponse (image_id : Nat) (r : AnalysisResult) : AnalyzeResponse :=
  { image_id := image_id
    scores := [("acne", r.acne), ("hemo", r.hemo), ("mela", r.mela),
               ("pore", r.pore), ("wrinkle", r.wrinkle)]
    overlays := [("acne", r.overlay_acne), ("hemo", r.overlay_hemo),
                 ("mela", r.overlay_mela), ("pore", r.overlay_pore),
                 ("wrinkle", r.overlay_wrinkle)] }

/-- POST /api/v1/analyze/{image_id}, src/app/main.py lines 108-208.
ai is the oracle for the single outbound AI call: error carries the
transport or HTTP-status failure cause, ok carries the parsed JSON.
rhex supplies uuid4().hex per overlay task, now is the server clock. -/
def analyze_image (cfg : Config) (image_id user_id : Nat)
    (ai : Except String AIResponse) (rhex : String → String) (now : Nat)
    (st : ServerState) : Except HTTPException AnalyzeResponse × ServerState :=
  if (st.users.find? (fun u => u.id == user_id)).isNone then
    (.error ⟨404, "User not found"⟩, st)
  else
    match st.images.find? (fun i => i.id == image_id && i.user_id == user_id) with
    | none => (.error ⟨404, "Image not found for this user"⟩, st)
    | some image =>
      match st.analysisResults.find? (fun r => r.image_id == image_id) with
      | some existing => (.ok (storedResponse image_id existing), st)
      | none =>
        if ¬ st.files.contains image.file_path then
          (.error ⟨404, "Image file not found on server"⟩, st)
        else
          let st1 := { st with ai_requests := st.ai_requests + 1 }
          match ai with
          | .error cause =>
            (.error ⟨500, "Failed to connect AI server: " ++ cause⟩, st1)
          | .ok ai_res =>
            match processTasks cfg user_id image_id rhex ai_res tasks st1 with
            | (.error e, st2) => (.error e, st2)
            | (.ok (ss, os), st2) =>
              match buildRow image_id now ss os with
              | none => (.error ⟨500, "Internal Server Error"⟩, st2)
              | some row =>
                (.ok ⟨image_id, ss, os⟩,
                 { st2 with analysisResults := st2.analysisResults ++ [row] })

/-! ### Result listing -/

structure FeatureMap (α : Type) where
  acne : α
  hemo : α
  mela : α
  pore : α
  wrinkle : α
deriving DecidableEq, Repr

structure ResultEntry where
  image_id : Nat
  image_url : String
  uploaded_at : Nat
  scores : FeatureMap (Option ℚ)
  overlays : Option (FeatureMap String)
  analysis_created_at : Option Nat
deriving DecidableEq, Repr

/-- One listing entry, src/app/main.py lines 229-252. -/
def entryOf (cfg : Config) (img : Image) (a : Option AnalysisResult) : ResultEntry :=
  { image_id := img.id
    image_url := cfg.server_base_url ++ "/static/" ++ pathName img.file_path
    uploaded_at := img.uploaded_at
    scores :=
      match a with
      | none => ⟨none, none, none, none, none⟩
      | some r => ⟨some r.acne, some r.hemo, some r.mela, some r.pore, some r.wrinkle⟩
    overlays :=
      match a with
      | none => none
      | some r => some ⟨r.overlay_acne, r.overlay_hemo, r.overlay_mela,
                        r.overlay_pore, r.overlay_wrinkle⟩
    analysis_created_at :=
      match a with
      | none => none
      | some r => some r.created_at }

/-- LEFT OUTER JOIN of images with analysis_results on
Image.id == AnalysisResult.image_id, src/app/main.py lines 219-225: an
image with no matching result contributes one row with an absent result,
an image with matching results contributes one row per match. -/
def joinRows (results : List AnalysisResult) : List Image → List (Image × Option AnalysisResult)
  | [] => []
  | img :: imgs =>
    (match results.filter (fun r => r.image_id == img.id) with
     | [] => [(img, none)]
     | rs => rs.map (fun r => (img, some r))) ++ joinRows results imgs

/-- GET /api/v1/results/user/{user_id}, src/app/main.py lines 212-254.
ORDER BY Image.uploaded_at DESC is realized by sorting the filtered
images by descending upload time before joining. -/
def get_user_results (cfg : Config) (user_id : Nat) (st : ServerState) :
    Except HTTPException (List ResultEntry) × ServerState :=
  if (st.users.find? (fun u => u.id == user_id)).isNone then
    (.error ⟨404, "User not found"⟩, st)
  else
    let imgs := st.images.filter (fun i => i.user_id == user_id)
    let sorted := imgs.mergeSort (fun a b => decide (b.uploaded_at ≤ a.uploaded_at))
    (.ok ((joinRows st.analysisResults sorted).map (fun p => entryOf cfg p.1 p.2)), st)

/-! ### Health check -/

structure HealthResponse where
  status : String
deriving DecidableEq, Repr

/-- Modelled from the spec: GET /health (spec sections 4.4 and 6).  The
health route is repository code missing from the src snapshot
(src/app/main.py holds only the final-iteration routes); per the spec it
takes no input, always returns the fixed status-ok payload, and touches
nothing. -/
def health (st : ServerState) : Except HTTPException HealthResponse × ServerState :=
  (.ok ⟨"ok"⟩, st)

/-! ### Operation sequences -/

/-- One API call together with its request-scoped inputs (clock value,
randomness, AI oracle). -/
inductive Op where
  | createUser (name : Option String) (now : Nat)
  | upload (cfg : Config) (user_id : Nat) (filename hex : String) (now : Nat)
  | analyze (cfg : Config) (image_id user_id : Nat)
      (ai : Except String AIResponse) (rhex : String → String) (now : Nat)
  | listResults (cfg : Config) (user_id : Nat)
  | healthCheck

def applyOp (st : ServerState) : Op → ServerState
  | .createUser name now => (create_user name now st).2
  | .upload cfg uid filename hex now => (upload_image cfg uid filename hex now st).2
  | .analyze cfg iid uid ai rhex now => (analyze_image cfg iid uid ai rhex now st).2
  | .listResults cfg uid => (get_user_results cfg uid st).2
  | .healthCheck => (health st).2

def runOps (st : ServerState) (ops : List Op) : ServerState :=
  ops.foldl applyOp st

/-- The invariant of claim C3 in the denormalized model: no two stored
analysis rows reference the same image. -/
def ResultsUnique (st : ServerState) : Prop :=
  st.analysisResults.Pairwise (fun a b => a.image_id ≠ b.image_id)

/-! ### Concrete fixtures used by the witness theorems -/

def cfgW : Config := ⟨"http://ai.example/analyze", "http://localhost:8000"⟩

def userW : User := ⟨1, some "alice", 0⟩

def stW : ServerState := ⟨[userW], [], [], [], 0⟩

def imgW : Image := ⟨10, 1, "uploads/user1_cafe.png", 3⟩

def stC6 : ServerState := ⟨[userW, ⟨2, none, 1⟩], [⟨10, 2, "uploads/user2_x.png", 0⟩], [], [], 0⟩

/-! ### Sanity checks of the path embedding against pathlib semantics -/

example : pathName "uploads/user1_ab.png" = "user1_ab.png" := by decide

example : pathSuffix "photo.GIF" = ".GIF" := by decide

example : toLowerStr (pathSuffix "x/.a.PNG") = ".png" := by decide

example : pathSuffix ".png" = "" := by decide

example : pathSuffix "photo." = "" := by decide

example : pathSuffix "a.tar.gz" = ".gz" := by decide

/-! ### Claim theorems -/

/-- C5: an upload for a user id that matches no User row fails with 404
"User not found" regardless of the filename (in particular before any
extension validation), and changes nothing. -/
theorem upload_user_not_found (cfg : Config) (user_id : Nat)
    (filename hex : String) (now : Nat) (st : ServerState)
    (hu : st.users.find? (fun x => x.id == user_id) = none) :
    upload_image cfg user_id filename hex now st
      = (.error ⟨404, "User not found"⟩, st) := by
  simp [upload_image, hu]

theorem upload_user_not_found_witness :
    stW.users.find? (fun x => x.id == 99999) = none ∧
    upload_image cfgW 99999 "photo.png" "deadbeef" 5 stW
      = (.error ⟨404, "User not found"⟩, stW) :=
  ⟨by decide, upload_user_not_found cfgW 99999 "photo.png" "deadbeef" 5 stW (by decide)⟩

/-- C4: an upload by an existing user whose filename extension
(lower-cased) is outside {.jpg, .jpeg, .png} fails with 400
"Invalid file format" and changes nothing (no Image row, no file). -/
theorem upload_invalid_extension (cfg : Config) (user_id : Nat)
    (filename hex : String) (now : Nat) (st : ServerState) (u : User)
    (hu : st.users.find? (fun x => x.id == user_id) = some u)
    (hext : toLowerStr (pathSuffix filename) ∉ ALLOWED_EXTS) :
    upload_image cfg user_id filename hex now st
      = (.error ⟨400, "Invalid file format"⟩, st) := by
  simp [upload_image, hu, hext]

theorem upload_invalid_extension_witness :
    stW.users.find? (fun x => x.id == 1) = some userW ∧
    toLowerStr (pathSuffix "photo.gif") ∉ ALLOWED_EXTS ∧
    upload_image cfgW 1 "photo.gif" "deadbeef" 5 stW
      = (.error ⟨400, "Invalid file format"⟩, stW) :=
  ⟨by decide, by decide,
    upload_invalid_extension cfgW 1 "photo.gif" "deadbeef" 5 stW userW
      (by decide) (by decide)⟩

/-- C6: analysis requested by an existing user for an image id that no
Image row pairs with that user id as owner fails with 404
"Image not found for this user" and changes nothing; in particular an
image owned by a different user is out of reach. -/
theorem analyze_image_not_found (cfg : Config) (image_id user_id : Nat)
    (ai : Except String AIResponse) (rhex : String → String) (now : Nat)
    (st : ServerState) (u : User)
    (hu : st.users.find? (fun x => x.id == user_id) = some u)
    (himg : st.images.find? (fun i => i.id == image_id && i.user_id == user_id) = none) :
    analyze_image cfg image_id user_id ai rhex now st
      = (.error ⟨404, "Image not found for this user"⟩, st) := by
  simp [analyze_image, hu, himg]

theorem analyze_image_not_found_witness :
    stC6.users.find? (fun x => x.id == 1) = some userW ∧
    stC6.images.find? (fun i => i.id == 10 && i.user_id == 1) = none ∧
    analyze_image cfgW 10 1 (.error "down") (fun _ => "aa") 9 stC6
      = (.error ⟨404, "Image not found for this user"⟩, stC6) :=
  ⟨by decide, by decide,
    analyze_image_not_found cfgW 10 1 (.error "down") (fun _ => "aa") 9 stC6 userW
      (by decide) (by decide)⟩

/-- The success path of the upload handler as one equation, shared by
the upload and round-trip developments. -/
lemma upload_ok_eq (cfg : Config) (user_id : Nat)
    (filename hex : String) (now : Nat) (st : ServerState) (u : User)
    (hu : st.users.find? (fun x => x.id == user_id) = some u)
    (hext : toLowerStr (pathSuffix filename) ∈ ALLOWED_EXTS) :
    upload_image cfg user_id filename hex now st
      = (.ok ⟨nextId (st.images.map (fun i => i.id)),
              cfg.server_base_url ++ "/static/"
                ++ safeNameOf user_id hex (toLowerStr (pathSuffix filename))⟩,
         { st with
             files := st.files
               ++ [UPLOAD_DIR ++ "/" ++ safeNameOf user_id hex (toLowerStr (pathSuffix filename))]
             images := st.images
               ++ [⟨nextId (st.images.map (fun i => i.id)), user_id,
                    UPLOAD_DIR ++ "/" ++ safeNameOf user_id hex (toLowerStr (pathSuffix filename)),
                    now⟩] }) := by
  simp [upload_image, hu, hext]

/-- C8: a successful upload stores the file under the storage root with
the filename user<user_id>_<hex><ext> and answers with the fresh image
id and the URL obtained by appending /static/ and that filename to the
configured base URL. -/
theorem upload_success_spec (cfg : Config) (user_id : Nat)
    (filename hex : String) (now : Nat) (st : ServerState) (u : User)
    (hu : st.users.find? (fun x => x.id == user_id) = some u)
    (hext : toLowerStr (pathSuffix filename) ∈ ALLOWED_EXTS) :
    upload_image cfg user_id filename hex now st
      = (.ok ⟨nextId (st.images.map (fun i => i.id)),
              cfg.server_base_url ++ "/static/"
                ++ safeNameOf user_id hex (toLowerStr (pathSuffix filename))⟩,
         { st with
             files := st.files
               ++ [UPLOAD_DIR ++ "/" ++ safeNameOf user_id hex (toLowerStr (pathSuffix filename))]
             images := st.images
               ++ [⟨nextId (st.images.map (fun i => i.id)), user_id,
                    UPLOAD_DIR ++ "/" ++ safeNameOf user_id hex (toLowerStr (pathSuffix filename)),
                    now⟩] })
    ∧ safeNameOf user_id hex (toLowerStr (pathSuffix filename))
        = "user" ++ Nat.repr user_id ++ "_" ++ hex ++ toLowerStr (pathSuffix filename) :=
  ⟨upload_ok_eq cfg user_id filename hex now st u hu hext, rfl⟩

theorem upload_success_spec_witness :
    stW.users.find? (fun x => x.id == 1) = some userW ∧
    toLowerStr (pathSuffix "photo.PNG") ∈ ALLOWED_EXTS ∧
    (upload_image cfgW 1 "photo.PNG" "cafebabe" 5 stW
      = (.ok ⟨nextId (stW.images.map (fun i => i.id)),
              cfgW.server_base_url ++ "/static/"
                ++ safeNameOf 1 "cafebabe" (toLowerStr (pathSuffix "photo.PNG"))⟩,
         { stW with
             files := stW.files
               ++ [UPLOAD_DIR ++ "/" ++ safeNameOf 1 "cafebabe" (toLowerStr (pathSuffix "photo.PNG"))]
             images := stW.images
               ++ [⟨nextId (stW.images.map (fun i => i.id)), 1,
                    UPLOAD_DIR ++ "/" ++ safeNameOf 1 "cafebabe" (toLowerStr (pathSuffix "photo.PNG")),
                    5⟩] })
    ∧ safeNameOf 1 "cafebabe" (toLowerStr (pathSuffix "photo.PNG"))
        = "user" ++ Nat.repr 1 ++ "_" ++ "cafebabe" ++ toLowerStr (pathSuffix "photo.PNG")) :=
  ⟨by decide, by decide,
    upload_success_spec cfgW 1 "photo.PNG" "cafebabe" 5 stW userW (by decide) (by decide)⟩

/-- C9: GET /health always answers the fixed status-ok payload and
neither reads nor writes any other component of the system state. -/
theorem health_always_ok (st : ServerState) : health st = (.ok ⟨"ok"⟩, st) := rfl

/-! ### The task loop touches only the file store and never the tables -/

lemma processTasks_preserves (cfg : Config) (uid iid : Nat) (rhex : String → String)
    (ai_res : AIResponse) (ts : List String) :
    ∀ st : ServerState,
      ((processTasks cfg uid iid rhex ai_res ts st).2).users = st.users ∧
      ((processTasks cfg uid iid rhex ai_res ts st).2).images = st.images ∧
      ((processTasks cfg uid iid rhex ai_res ts st).2).analysisResults = st.analysisResults := by
  induction ts with
  | nil => intro st; exact ⟨rfl, rfl, rfl⟩
  | cons t ts ih =>
    intro st
    simp only [processTasks]
    cases hg : dictGet ai_res t with
    | none => exact ⟨rfl, rfl, rfl⟩
    | some feat =>
      have ihs := ih (save_overlay_file cfg uid iid t (rhex t) st).2
      rcases hrec : processTasks cfg uid iid rhex ai_res ts
          (save_overlay_file cfg uid iid t (rhex t) st).2 with ⟨res, st2⟩
      rw [hrec] at ihs
      cases res with
      | error e => simpa [save_overlay_file] using ihs
      | ok p =>
        obtain ⟨ss, os⟩ := p
        simpa [save_overlay_file] using ihs

lemma processTasks_missing (cfg : Config) (uid iid : Nat) (rhex : String → String)
    (ai_res : AIResponse) (ts : List String) :
    ∀ st : ServerState, (∃ t ∈ ts, dictGet ai_res t = none) →
      ∃ st2, processTasks cfg uid iid rhex ai_res ts st
        = (.error ⟨500, "Internal Server Error"⟩, st2) := by
  induction ts with
  | nil =>
    intro st h
    obtain ⟨t, ht, _⟩ := h
    cases ht
  | cons t ts ih =>
    intro st h
    simp only [processTasks]
    cases hg : dictGet ai_res t with
    | none => exact ⟨st, rfl⟩
    | some feat =>
      obtain ⟨rv, ov⟩ := feat
      have hts : ∃ x ∈ ts, dictGet ai_res x = none := by
        obtain ⟨x, hx, hxn⟩ := h
        rcases List.mem_cons.mp hx with hxe | hxm
        · rw [hxe] at hxn
          rw [hxn] at hg
          cases hg
        · exact ⟨x, hxm, hxn⟩
      obtain ⟨st2, h2⟩ := ih (save_overlay_file cfg uid iid t (rhex t) st).2 hts
      rw [h2]
      exact ⟨st2, rfl⟩

/-- C2: when the AI answer in the scores+overlays shape lacks one of the
five feature keys, the analyze operation fails with the framework 500
internal error (the KeyError path of src/app/main.py line 176) and no
AnalysisResult row is persisted: the analysis_results table is exactly
what it was before the request. -/
theorem analyze_missing_key_no_persist (cfg : Config) (image_id user_id : Nat)
    (rhex : String → String) (now : Nat) (st : ServerState) (u : User) (img : Image)
    (ai_res : AIResponse)
    (hu : st.users.find? (fun x => x.id == user_id) = some u)
    (himg : st.images.find? (fun i => i.id == image_id && i.user_id == user_id) = some img)
    (hres : st.analysisResults.find? (fun r => r.image_id == image_id) = none)
    (hfile : st.files.contains img.file_path = true)
    (hmiss : ∃ t ∈ tasks, dictGet ai_res t = none) :
    ∃ st2, analyze_image cfg image_id user_id (.ok ai_res) rhex now st
             = (.error ⟨500, "Internal Server Error"⟩, st2)
         ∧ st2.analysisResults = st.analysisResults := by
  obtain ⟨st2, h2⟩ := processTasks_missing cfg user_id image_id rhex ai_res tasks
      { st with ai_requests := st.ai_requests + 1 } hmiss
  have hp := (processTasks_preserves cfg user_id image_id rhex ai_res tasks
      { st with ai_requests := st.ai_requests + 1 }).2.2
  rw [h2] at hp
  refine ⟨st2, ?_, hp⟩
  simp only [analyze_image, hu, himg, hres, hfile]
  rw [h2]
  simp

def imgC2 : Image := ⟨10, 1, "uploads/user1_cafe.png", 3⟩

def stC2 : ServerState := ⟨[userW], [imgC2], [], ["uploads/user1_cafe.png"], 0⟩

def aiMissingPore : AIResponse :=
  [("acne", ⟨1, "QQ=="⟩), ("hemo", ⟨2, "Qg=="⟩),
   ("mela", ⟨3, "Qw=="⟩), ("wrinkle", ⟨4, "RA=="⟩)]

lemma processTasks_tasks_ok (cfg : Config) (uid iid : Nat) (rhex : String → String)
    (ai_res : AIResponse) (st : ServerState) (ss : List (String × ℚ))
    (os : List (String × String)) (st2 : ServerState)
    (h : processTasks cfg uid iid rhex ai_res tasks st = (.ok (ss, os), st2)) :
    ∃ ra rh rm rp rw : ℚ, ∃ u1 u2 u3 u4 u5 : String,
      ss = [("acne", ra), ("hemo", rh), ("mela", rm), ("pore", rp), ("wrinkle", rw)] ∧
      os = [("acne", u1), ("hemo", u2), ("mela", u3), ("pore", u4), ("wrinkle", u5)] := by
  simp only [tasks, processTasks] at h
  cases h1 : dictGet ai_res "acne" with
  | none => rw [h1] at h; simp at h
  | some f1 =>
  rw [h1] at h
  cases h2 : dictGet ai_res "hemo" with
  | none => rw [h2] at h; simp at h
  | some f2 =>
  rw [h2] at h
  cases h3 : dictGet ai_res "mela" with
  | none => rw [h3] at h; simp at h
  | some f3 =>
  rw [h3] at h
  cases h4 : dictGet ai_res "pore" with
  | none => rw [h4] at h; simp at h
  | some f4 =>
  rw [h4] at h
  cases h5 : dictGet ai_res "wrinkle" with
  | none => rw [h5] at h; simp at h
  | some f5 =>
  rw [h5] at h
  simp only [Prod.mk.injEq, Except.ok.injEq] at h
  obtain ⟨⟨hss, hos⟩, hst⟩ := h
  exact ⟨_, _, _, _, _, _, _, _, _, _, hss.symm, hos.symm⟩

lemma buildRow_image_id (iid now : Nat) (ss : List (String × ℚ))
    (os : List (String × String)) (row : AnalysisResult)
    (hb : buildRow iid now ss os = some row) : row.image_id = iid := by
  unfold buildRow at hb
  split at hb
  · injection hb with h
    rw [← h]
  · cases hb

/-- The idempotent short-circuit branch of src/app/main.py lines
128-150 in isolation. -/
lemma analyze_existing (cfg : Config) (image_id user_id : Nat)
    (ai : Except String AIResponse) (rhex : String → String) (now : Nat)
    (st : ServerState) (u : User) (img : Image) (r : AnalysisResult)
    (hu : st.users.find? (fun x => x.id == user_id) = some u)
    (himg : st.images.find? (fun i => i.id == image_id && i.user_id == user_id) = some img)
    (hres : st.analysisResults.find? (fun x => x.image_id == image_id) = some r) :
    analyze_image cfg image_id user_id ai rhex now st
      = (.ok (storedResponse image_id r), st) := by
  simp [analyze_image, hu, himg, hres]

/-- Whatever path a successful analyze call took, afterwards the user
and image tables are untouched, the looked-up user and owned image
existed, and the answered payload is exactly the stored-row rendering of
an AnalysisResult row now retrievable for this image. -/
lemma analyze_ok_cases (cfg : Config) (image_id user_id : Nat)
    (ai : Except String AIResponse) (rhex : String → String) (now : Nat)
    (st st' : ServerState) (resp : AnalyzeResponse)
    (h : analyze_image cfg image_id user_id ai rhex now st = (.ok resp, st')) :
    st'.users = st.users ∧ st'.images = st.images ∧
    (∃ u, st.users.find? (fun x => x.id == user_id) = some u) ∧
    (∃ img, st.images.find? (fun i => i.id == image_id && i.user_id == user_id) = some img) ∧
    ∃ row, st'.analysisResults.find? (fun x => x.image_id == image_id) = some row
         ∧ resp = storedResponse image_id row := by
  cases hu : st.users.find? (fun x => x.id == user_id) with
  | none =>
    unfold analyze_image at h
    rw [hu] at h
    simp at h
  | some u =>
    unfold analyze_image at h
    rw [hu] at h
    simp only [Option.isNone_some, Bool.false_eq_true, if_false] at h
    cases himg : st.images.find? (fun i => i.id == image_id && i.user_id == user_id) with
    | none =>
      rw [himg] at h
      simp at h
    | some img =>
      rw [himg] at h
      dsimp only at h
      cases hres : st.analysisResults.find? (fun x => x.image_id == image_id) with
      | some r =>
        rw [hres] at h
        simp only [Prod.mk.injEq, Except.ok.injEq] at h
        obtain ⟨hresp, hst⟩ := h
        subst hst
        exact ⟨rfl, rfl, ⟨u, rfl⟩, ⟨img, rfl⟩, r, hres, hresp.symm⟩
      | none =>
        rw [hres] at h
        dsimp only at h
        cases hfile : st.files.contains img.file_path with
        | false =>
          rw [hfile] at h
          simp at h
        | true =>
          rw [hfile] at h
          simp only [eq_self_iff_true, not_true, if_false] at h
          cases ai with
          | error cause => simp at h
          | ok ai_res =>
            dsimp only at h
            rcases heq : processTasks cfg user_id image_id rhex ai_res tasks
                { st with ai_requests := st.ai_requests + 1 } with ⟨pres, st2⟩
            rw [heq] at h
            cases pres with
            | error e => simp at h
            | ok p =>
              obtain ⟨ss, os⟩ := p
              dsimp only at h
              cases hb : buildRow image_id now ss os with
              | none =>
                rw [hb] at h
                simp at h
              | some row =>
                rw [hb] at h
                simp only [Prod.mk.injEq, Except.ok.injEq] at h
                obtain ⟨hresp, hst⟩ := h
                subst hst
                have hpre := processTasks_preserves cfg user_id image_id rhex ai_res tasks
                    { st with ai_requests := st.ai_requests + 1 }
                rw [heq] at hpre
                obtain ⟨hpu, hpi, hpr⟩ := hpre
                refine ⟨hpu, hpi, ⟨u, rfl⟩, ⟨img, rfl⟩, row, ?_, ?_⟩
                · show (st2.analysisResults ++ [row]).find? (fun x => x.image_id == image_id)
                    = some row
                  rw [List.find?_append]
                  rw [hpr]
                  show ((st.analysisResults.find? fun x => x.image_id == image_id).or _) = _
                  rw [hres]
                  simp [List.find?, buildRow_image_id image_id now ss os row hb]
                · obtain ⟨ra, rh, rm, rp, rw5, u1, u2, u3, u4, u5, hss, hos⟩ :=
                    processTasks_tasks_ok cfg user_id image_id rhex ai_res
                      { st with ai_requests := st.ai_requests + 1 } ss os st2 heq
                  subst hss
                  subst hos
                  have hrow : row = ⟨image_id, ra, rh, rm, rp, rw5, u1, u2, u3, u4, u5, now⟩ := by
                    have hb2 := hb
                    simp [buildRow, dictGet, List.find?] at hb2
                    exact hb2.symm
                  rw [← hresp, hrow]
                  rfl

/-- C1: when an AnalysisResult row is already stored for an image, an
analyze call by the owner answers the stored scores and overlay
references for any behavior of the AI oracle, the clock and the
randomness, and the whole state (tables, file store and the AI request
counter) is left untouched; consequently a second analyze call right
after any successful one answers exactly the first answer and leaves
the state of the first answer in place. -/
theorem analyze_idempotent (cfg : Config) (image_id user_id : Nat) (st : ServerState) :
    (∀ (u : User) (img : Image) (r : AnalysisResult)
       (ai : Except String AIResponse) (rhex : String → String) (now : Nat),
       st.users.find? (fun x => x.id == user_id) = some u →
       st.images.find? (fun i => i.id == image_id && i.user_id == user_id) = some img →
       st.analysisResults.find? (fun x => x.image_id == image_id) = some r →
       analyze_image cfg image_id user_id ai rhex now st
         = (.ok (storedResponse image_id r), st)) ∧
    (∀ (ai : Except String AIResponse) (rhex : String → String) (now : Nat)
       (resp : AnalyzeResponse) (st' : ServerState),
       analyze_image cfg image_id user_id ai rhex now st = (.ok resp, st') →
       ∀ (ai2 : Except String AIResponse) (rhex2 : String → String) (now2 : Nat),
         analyze_image cfg image_id user_id ai2 rhex2 now2 st' = (.ok resp, st')) := by
  constructor
  · intro u img r ai rhex now hu himg hres
    exact analyze_existing cfg image_id user_id ai rhex now st u img r hu himg hres
  · intro ai rhex now resp st' h ai2 rhex2 now2
    obtain ⟨hpu, hpi, ⟨u, hu⟩, ⟨img, himg⟩, row, hrow, hresp⟩ :=
      analyze_ok_cases cfg image_id user_id ai rhex now st st' resp h
    rw [hresp]
    refine analyze_existing cfg image_id user_id ai2 rhex2 now2 st' u img row ?_ ?_ hrow
    · rw [hpu]
      exact hu
    · rw [hpi]
      exact himg

def rowW : AnalysisResult :=
  ⟨10, 1, 2, 3, 4, 5,
   "http://localhost:8000/static/user1_10_acne_aa.png",
   "http://localhost:8000/static/user1_10_hemo_aa.png",
   "http://localhost:8000/static/user1_10_mela_aa.png",
   "http://localhost:8000/static/user1_10_pore_aa.png",
   "http://localhost:8000/static/user1_10_wrinkle_aa.png", 7⟩

def stC1 : ServerState := ⟨[userW], [imgW], [rowW], ["uploads/user1_cafe.png"], 0⟩

theorem analyze_idempotent_witness :
    stC1.users.find? (fun x => x.id == 1) = some userW ∧
    stC1.images.find? (fun i => i.id == 10 && i.user_id == 1) = some imgW ∧
    stC1.analysisResults.find? (fun x => x.image_id == 10) = some rowW ∧
    analyze_image cfgW 10 1 (.error "ai server unreachable") (fun _ => "aa") 9 stC1
      = (.ok (storedResponse 10 rowW), stC1) ∧
    analyze_image cfgW 10 1 (.error "still unreachable") (fun _ => "bb") 11 stC1
      = (.ok (storedResponse 10 rowW), stC1) :=
  ⟨by decide, by decide, by decide,
    (analyze_idempotent cfgW 10 1 stC1).1 userW imgW rowW
      (.error "ai server unreachable") (fun _ => "aa") 9
      (by decide) (by decide) (by decide),
    (analyze_idempotent cfgW 10 1 stC1).2
      (.error "ai server unreachable") (fun _ => "aa") 9 (storedResponse 10 rowW) stC1
      ((analyze_idempotent cfgW 10 1 stC1).1 userW imgW rowW
        (.error "ai server unreachable") (fun _ => "aa") 9
        (by decide) (by decide) (by decide))
      (.error "still unreachable") (fun _ => "bb") 11⟩

theorem analyze_missing_key_no_persist_witness :
    stC2.users.find? (fun x => x.id == 1) = some userW ∧
    stC2.images.find? (fun i => i.id == 10 && i.user_id == 1) = some imgC2 ∧
    stC2.analysisResults.find? (fun r => r.image_id == 10) = none ∧
    stC2.files.contains imgC2.file_path = true ∧
    (∃ t ∈ tasks, dictGet aiMissingPore t = none) ∧
    ∃ st2, analyze_image cfgW 10 1 (.ok aiMissingPore) (fun t => t ++ "ff") 9 stC2
             = (.error ⟨500, "Internal Server Error"⟩, st2)
         ∧ st2.analysisResults = stC2.analysisResults :=
  ⟨by decide, by decide, by decide, by decide, by decide,
    analyze_missing_key_no_persist cfgW 10 1 (fun t => t ++ "ff") 9 stC2 userW imgC2
      aiMissingPore (by decide) (by decide) (by decide) (by decide) (by decide)⟩

/-! ### At most one analysis row per image across operation sequences -/

lemma upload_analysisResults (cfg : Config) (user_id : Nat) (filename hex : String)
    (now : Nat) (st : ServerState) :
    ((upload_image cfg user_id filename hex now st).2).analysisResults
      = st.analysisResults := by
  unfold upload_image
  split
  · rfl
  · dsimp only
    split
    · rfl
    · rfl

lemma get_user_results_state (cfg : Config) (user_id : Nat) (st : ServerState) :
    (get_user_results cfg user_id st).2 = st := by
  unfold get_user_results
  split
  · rfl
  · rfl

lemma analyze_resultsUnique (cfg : Config) (image_id user_id : Nat)
    (ai : Except String AIResponse) (rhex : String → String) (now : Nat)
    (st : ServerState) (h : ResultsUnique st) :
    ResultsUnique ((analyze_image cfg image_id user_id ai rhex now st).2) := by
  unfold analyze_image
  cases hu : st.users.find? (fun x => x.id == user_id) with
  | none => exact h
  | some u =>
    simp only [Option.isNone_some, Bool.false_eq_true, if_false]
    cases himg : st.images.find? (fun i => i.id == image_id && i.user_id == user_id) with
    | none => exact h
    | some img =>
      dsimp only
      cases hres : st.analysisResults.find? (fun x => x.image_id == image_id) with
      | some r => exact h
      | none =>
        dsimp only
        cases hfile : st.files.contains img.file_path with
        | false => exact h
        | true =>
          simp only [eq_self_iff_true, not_true, if_false]
          cases ai with
          | error cause => exact h
          | ok ai_res =>
            dsimp only
            rcases heq : processTasks cfg user_id image_id rhex ai_res tasks
                { st with ai_requests := st.ai_requests + 1 } with ⟨pres, st2⟩
            have hpre := processTasks_preserves cfg user_id image_id rhex ai_res tasks
                { st with ai_requests := st.ai_requests + 1 }
            rw [heq] at hpre
            obtain ⟨-, -, hpr⟩ := hpre
            cases pres with
            | error e =>
              unfold ResultsUnique
              rw [hpr]
              exact h
            | ok p =>
              obtain ⟨ss, os⟩ := p
              dsimp only
              cases hb : buildRow image_id now ss os with
              | none =>
                unfold ResultsUnique
                rw [hpr]
                exact h
              | some row =>
                unfold ResultsUnique
                dsimp only
                rw [hpr]
                rw [List.pairwise_append]
                refine ⟨h, by simp, ?_⟩
                intro a ha b2 hb2
                have hbrow : b2 = row := List.mem_singleton.mp hb2
                rw [hbrow]
                have hne := List.find?_eq_none.mp hres a ha
                have hrid : row.image_id = image_id :=
                  buildRow_image_id image_id now ss os row hb
                intro hcontra
                exact hne (by simp [hcontra, hrid])

lemma applyOp_resultsUnique (st : ServerState) (op : Op) (h : ResultsUnique st) :
    ResultsUnique (applyOp st op) := by
  cases op with
  | createUser name now => exact h
  | upload cfg uid filename hex now =>
    unfold ResultsUnique
    rw [show (applyOp st (.upload cfg uid filename hex now)).analysisResults
          = st.analysisResults from upload_analysisResults cfg uid filename hex now st]
    exact h
  | analyze cfg iid uid ai rhex now =>
    exact analyze_resultsUnique cfg iid uid ai rhex now st h
  | listResults cfg uid =>
    show ResultsUnique (get_user_results cfg uid st).2
    rw [get_user_results_state cfg uid st]
    exact h
  | healthCheck => exact h

lemma runOps_resultsUnique (ops : List Op) :
    ∀ st : ServerState, ResultsUnique st → ResultsUnique (runOps st ops) := by
  induction ops with
  | nil => intro st h; exact h
  | cons op ops ih =>
    intro st h
    exact ih (applyOp st op) (applyOp_resultsUnique st op h)

def nrow1 : AnalysisRow := ⟨1, 7, "pore", 1, 0⟩

def nrow2 : AnalysisRow := ⟨2, 7, "wrinkle", 2, 0⟩

/-- C3 counterexample: in the schema actually declared in
src/app/models.py the uniqueness constraint is on the (image_id, item)
pair, so a table holding two rows that reference the same image (one per
feature item) satisfies the constraint, a second row for an
already-analyzed image inserts without conflict, and the claimed
invariant that no two AnalysisResult rows reference the same image
fails. -/
theorem analysis_uniqueness_counterexample :
    NormalizedUnique [nrow1, nrow2] ∧
    insertRow [nrow1] nrow2 = some [nrow1, nrow2] ∧
    ¬ ([nrow1, nrow2].Pairwise (fun a b => a.image_id ≠ b.image_id)) := by
  refine ⟨?_, by decide, ?_⟩
  · unfold NormalizedUnique
    decide
  · decide

/-- C3 amended: every sequence of API operations preserves the
invariant that no two rows of the denormalized analysis_results store
reference the same image (the analyze handler inserts only after
checking that no row exists for the image), and under the final
denormalized schema, whose primary key is the image id, inserting a
second row for an already-present image is rejected as a conflict; in
the normalized variant declared in src/app/models.py only an insert
duplicating an existing (image_id, item) pair is rejected. -/
theorem analysis_uniqueness_amended (ops : List Op) (st : ServerState)
    (hInv : ResultsUnique st)
    (rows : List AnalysisResult) (r : AnalysisResult)
    (hdup : ∃ q ∈ rows, q.image_id = r.image_id)
    (nrows : List AnalysisRow) (nr : AnalysisRow)
    (hndup : ∃ q ∈ nrows, q.image_id = nr.image_id ∧ q.item = nr.item) :
    ResultsUnique (runOps st ops) ∧
    insertResult rows r = none ∧
    insertRow nrows nr = none := by
  refine ⟨runOps_resultsUnique ops st hInv, ?_, ?_⟩
  · obtain ⟨q, hq, heq⟩ := hdup
    have hany : rows.any (fun q0 => q0.image_id == r.image_id) = true :=
      List.any_eq_true.mpr ⟨q, hq, by simp [heq]⟩
    simp [insertResult, hany]
  · obtain ⟨q, hq, heq1, heq2⟩ := hndup
    have hany : nrows.any (fun q0 => q0.image_id == nr.image_id && q0.item == nr.item) = true :=
      List.any_eq_true.mpr ⟨q, hq, by simp [heq1, heq2]⟩
    simp [insertRow, hany]

def aiFull : AIResponse :=
  [("acne", ⟨1, "QQ=="⟩), ("hemo", ⟨2, "Qg=="⟩), ("mela", ⟨3, "Qw=="⟩),
   ("pore", ⟨4, "RA=="⟩), ("wrinkle", ⟨5, "RQ=="⟩)]

def opsW : List Op :=
  [.createUser (some "bob") 1,
   .upload cfgW 1 "a.png" "hexhex" 2,
   .analyze cfgW 1 1 (.ok aiFull) (fun t => t ++ "00") 3,
   .analyze cfgW 1 1 (.error "down") (fun t => t ++ "11") 4,
   .listResults cfgW 1,
   .healthCheck]

def rowW2 : AnalysisResult := ⟨10, 7, 7, 7, 7, 7, "a", "b", "c", "d", "e", 9⟩

theorem analysis_uniqueness_amended_witness :
    ResultsUnique stW ∧
    (∃ q ∈ [rowW], q.image_id = rowW2.image_id) ∧
    (∃ q ∈ [nrow1], q.image_id = (⟨3, 7, "pore", 5, 1⟩ : AnalysisRow).image_id
        ∧ q.item = (⟨3, 7, "pore", 5, 1⟩ : AnalysisRow).item) ∧
    (ResultsUnique (runOps stW opsW) ∧
     insertResult [rowW] rowW2 = none ∧
     insertRow [nrow1] ⟨3, 7, "pore", 5, 1⟩ = none) :=
  ⟨List.Pairwise.nil, by decide, by decide,
    analysis_uniqueness_amended opsW stW List.Pairwise.nil
      [rowW] rowW2 (by decide) [nrow1] ⟨3, 7, "pore", 5, 1⟩ (by decide)⟩

/-! ### The per-user result listing -/

/-- Under the one-row-per-image invariant, filtering the analysis store
by an image id returns the empty list or the single row the point
lookup finds. -/
lemma resultsUnique_filter (results : List AnalysisResult)
    (h : results.Pairwise (fun a b => a.image_id ≠ b.image_id)) (i : Nat) :
    results.filter (fun r => r.image_id == i)
      = (match results.find? (fun r => r.image_id == i) with
         | none => []
         | some r => [r]) := by
  induction results with
  | nil => rfl
  | cons x xs ih =>
    obtain ⟨hx, hxs⟩ := List.pairwise_cons.mp h
    rw [List.filter_cons, List.find?_cons]
    cases hbx : (x.image_id == i) with
    | true =>
      simp only [if_true]
      have hfe : xs.filter (fun r => r.image_id == i) = [] := by
        rw [List.filter_eq_nil_iff]
        intro b hb
        have hne := hx b hb
        have hxi : x.image_id = i := by simpa using hbx
        simp [← hxi]
        intro hcontra
        exact hne hcontra.symm
      rw [hfe]
    | false =>
      simp only [Bool.false_eq_true, if_false]
      exact ih hxs

lemma joinRows_eq_map (results : List AnalysisResult)
    (h : results.Pairwise (fun a b => a.image_id ≠ b.image_id)) :
    ∀ imgs : List Image,
      joinRows results imgs
        = imgs.map (fun img => (img, results.find? (fun r => r.image_id == img.id))) := by
  intro imgs
  induction imgs with
  | nil => rfl
  | cons img imgs ih =>
    unfold joinRows
    rw [resultsUnique_filter results h img.id, ih]
    simp only [List.map_cons]
    cases results.find? (fun r => r.image_id == img.id) with
    | none => rfl
    | some r => rfl

/-- C7: for a registered user the listing answers one entry per owned
image — the entry ids are a permutation of the ids of the user's
images — ordered by upload time descending, where an entry carries the
five stored scores and the overlay group exactly when an analysis row
exists for its image and all-null scores with an absent overlay group
otherwise; a user with no images gets the empty list and no error, and
an unknown user id gets 404 "User not found". -/
theorem get_user_results_spec (cfg : Config) (user_id : Nat) (st : ServerState)
    (hInv : ResultsUnique st) :
    (st.users.find? (fun x => x.id == user_id) = none →
       get_user_results cfg user_id st = (.error ⟨404, "User not found"⟩, st)) ∧
    (∀ u, st.users.find? (fun x => x.id == user_id) = some u →
       ∃ entries,
         get_user_results cfg user_id st = (.ok entries, st) ∧
         List.Perm (entries.map (fun e => e.image_id))
           ((st.images.filter (fun i => i.user_id == user_id)).map (fun i => i.id)) ∧
         entries.Pairwise (fun e1 e2 => e2.uploaded_at ≤ e1.uploaded_at) ∧
         (st.images.filter (fun i => i.user_id == user_id) = [] → entries = []) ∧
         (∀ e ∈ entries,
            match st.analysisResults.find? (fun r => r.image_id == e.image_id) with
            | none => e.scores = ⟨none, none, none, none, none⟩ ∧ e.overlays = none
                        ∧ e.analysis_created_at = none
            | some r => e.scores = ⟨some r.acne, some r.hemo, some r.mela,
                                    some r.pore, some r.wrinkle⟩
                        ∧ e.overlays = some ⟨r.overlay_acne, r.overlay_hemo, r.overlay_mela,
                                             r.overlay_pore, r.overlay_wrinkle⟩
                        ∧ e.analysis_created_at = some r.created_at)) := by
  constructor
  · intro hu
    simp [get_user_results, hu]
  · intro u hu
    have hle : ∀ a b c : Image,
        decide (b.uploaded_at ≤ a.uploaded_at) = true →
        decide (c.uploaded_at ≤ b.uploaded_at) = true →
        decide (c.uploaded_at ≤ a.uploaded_at) = true := by
      intro a b c h1 h2
      simp only [decide_eq_true_eq] at h1 h2 ⊢
      exact le_trans h2 h1
    have htot : ∀ a b : Image,
        (decide (b.uploaded_at ≤ a.uploaded_at) || decide (a.uploaded_at ≤ b.uploaded_at)) = true := by
      intro a b
      rcases Nat.le_total b.uploaded_at a.uploaded_at with h1 | h1
      · simp [h1]
      · simp [h1]
    refine ⟨((st.images.filter (fun i => i.user_id == user_id)).mergeSort
               (fun a b => decide (b.uploaded_at ≤ a.uploaded_at))).map
             (fun img => entryOf cfg img
               (st.analysisResults.find? (fun r => r.image_id == img.id))),
            ?_, ?_, ?_, ?_, ?_⟩
    · unfold get_user_results
      rw [hu]
      simp only [Option.isNone_some, Bool.false_eq_true, if_false]
      rw [joinRows_eq_map st.analysisResults hInv, List.map_map]
      rfl
    · rw [List.map_map]
      have hperm := List.mergeSort_perm
        (st.images.filter (fun i => i.user_id == user_id))
        (fun a b => decide (b.uploaded_at ≤ a.uploaded_at))
      have := hperm.map (fun i : Image => i.id)
      refine List.Perm.trans ?_ this
      apply List.Perm.of_eq
      apply List.map_congr_left
      intro img hmem
      rfl
    · have hsorted := List.sorted_mergeSort hle htot
        (st.images.filter (fun i => i.user_id == user_id))
      refine List.Pairwise.map _ ?_ hsorted
      intro a b hab
      simpa using hab
    · intro hempty
      rw [hempty, List.mergeSort_nil]
      rfl
    · intro e he
      obtain ⟨img, hmem, himg⟩ := List.mem_map.mp he
      have hid : e.image_id = img.id := by rw [← himg]; rfl
      rw [hid]
      cases hfind : st.analysisResults.find? (fun r => r.image_id == img.id) with
      | none =>
        have : e = entryOf cfg img none := by rw [← himg]; simp [Function.comp, hfind]
        rw [this]
        exact ⟨rfl, rfl, rfl⟩
      | some r =>
        have : e = entryOf cfg img (some r) := by rw [← himg]; simp [Function.comp, hfind]
        rw [this]
        exact ⟨rfl, rfl, rfl⟩

theorem get_user_results_spec_witness :
    ResultsUnique stC1 ∧
    ((stC1.users.find? (fun x => x.id == 1) = none →
       get_user_results cfgW 1 stC1 = (.error ⟨404, "User not found"⟩, stC1)) ∧
    (∀ u, stC1.users.find? (fun x => x.id == 1) = some u →
       ∃ entries,
         get_user_results cfgW 1 stC1 = (.ok entries, stC1) ∧
         List.Perm (entries.map (fun e => e.image_id))
           ((stC1.images.filter (fun i => i.user_id == 1)).map (fun i => i.id)) ∧
         entries.Pairwise (fun e1 e2 => e2.uploaded_at ≤ e1.uploaded_at) ∧
         (stC1.images.filter (fun i => i.user_id == 1) = [] → entries = []) ∧
         (∀ e ∈ entries,
            match stC1.analysisResults.find? (fun r => r.image_id == e.image_id) with
            | none => e.scores = ⟨none, none, none, none, none⟩ ∧ e.overlays = none
                        ∧ e.analysis_created_at = none
            | some r => e.scores = ⟨some r.acne, some r.hemo, some r.mela,
                                    some r.pore, some r.wrinkle⟩
                        ∧ e.overlays = some ⟨r.overlay_acne, r.overlay_hemo, r.overlay_mela,
                                             r.overlay_pore, r.overlay_wrinkle⟩
                        ∧ e.analysis_created_at = some r.created_at))) :=
  ⟨by unfold ResultsUnique; decide,
   get_user_results_spec cfgW 1 stC1 (by unfold ResultsUnique; decide)⟩

/-! ### Upload URL and listing URL agree (round trip through the path) -/

lemma digitChar_ne_slash (k : Nat) : Nat.digitChar k ≠ '/' := by
  by_cases hk : k < 16
  · interval_cases k <;> decide
  · unfold Nat.digitChar
    repeat rw [if_neg (by omega)]
    decide

lemma toDigitsCore_ne_slash :
    ∀ (fuel n : Nat) (acc : List Char), (∀ c ∈ acc, c ≠ '/') →
      ∀ c ∈ Nat.toDigitsCore 10 fuel n acc, c ≠ '/' := by
  intro fuel
  induction fuel with
  | zero =>
    intro n acc hacc c hc
    simp only [Nat.toDigitsCore] at hc
    exact hacc c hc
  | succ fuel ih =>
    intro n acc hacc c hc
    have hdacc : ∀ x ∈ (Nat.digitChar (n % 10) :: acc), x ≠ '/' := by
      intro x hx
      rcases List.mem_cons.mp hx with hxe | hmem
      · rw [hxe]; exact digitChar_ne_slash _
      · exact hacc x hmem
    by_cases h0 : n / 10 = 0
    · simp only [Nat.toDigitsCore, h0, if_true] at hc
      exact hdacc c hc
    · simp only [Nat.toDigitsCore, h0, if_false] at hc
      exact ih (n / 10) (Nat.digitChar (n % 10) :: acc) hdacc c hc

lemma repr_ne_slash (n : Nat) : ∀ c ∈ (Nat.repr n).data, c ≠ '/' := by
  intro c hc
  have hdata : (Nat.repr n).data = Nat.toDigitsCore 10 (n + 1) n [] := rfl
  rw [hdata] at hc
  exact toDigitsCore_ne_slash (n + 1) n [] (by intro x hx; cases hx) c hc

lemma takeWhile_append_cons {α : Type} (p : α → Bool) (xs : List α) (y : α) (ys : List α)
    (hxs : ∀ x ∈ xs, p x = true) (hy : p y = false) :
    (xs ++ y :: ys).takeWhile p = xs := by
  induction xs with
  | nil => simp [List.takeWhile_cons, hy]
  | cons a xs ih =>
    rw [List.cons_append, List.takeWhile_cons, hxs a (by simp)]
    simp only [if_true]
    rw [ih (fun x hx => hxs x (by simp [hx]))]

/-- The final path component of dir ++ "/" ++ name is name itself when
name is nonempty and slash-free (the stored filenames are). -/
lemma pathNameChars_append (l1 l2 : List Char) (h2 : ∀ c ∈ l2, c ≠ '/') (hne : l2 ≠ []) :
    pathNameChars (l1 ++ '/' :: l2) = l2 := by
  unfold pathNameChars
  rw [List.reverse_append, List.reverse_cons, List.append_assoc, List.singleton_append]
  obtain ⟨c, cs, hrev⟩ : ∃ c cs, l2.reverse = c :: cs := by
    cases hr : l2.reverse with
    | nil =>
      exfalso
      apply hne
      have := congrArg List.reverse hr
      simpa using this
    | cons c cs => exact ⟨c, cs, rfl⟩
  rw [hrev]
  have hc2 : c ∈ l2 := by
    rw [← List.mem_reverse, hrev]
    exact List.mem_cons_self c cs
  have hcne : (c == '/') = false := by
    simpa using h2 c hc2
  rw [List.cons_append, List.dropWhile_cons, hcne]
  simp only [Bool.false_eq_true, if_false]
  have htake : List.takeWhile (fun x => x != '/') (c :: (cs ++ '/' :: l1.reverse))
      = c :: cs := by
    rw [show c :: (cs ++ '/' :: l1.reverse) = (c :: cs) ++ '/' :: l1.reverse from rfl]
    apply takeWhile_append_cons
    · intro x hx
      have hxl2 : x ∈ l2 := by
        rw [← List.mem_reverse, hrev]
        exact hx
      simpa using h2 x hxl2
    · decide
  rw [htake, ← hrev, List.reverse_reverse]

lemma joinRows_mem (results : List AnalysisResult) :
    ∀ (imgs : List Image) (img : Image), img ∈ imgs →
      ∃ a, (img, a) ∈ joinRows results imgs := by
  intro imgs
  induction imgs with
  | nil => intro img h; cases h
  | cons x xs ih =>
    intro img h
    unfold joinRows
    rcases List.mem_cons.mp h with hxe | hmem
    · subst hxe
      cases hf : results.filter (fun r => r.image_id == img.id) with
      | nil => exact ⟨none, List.mem_append_left _ (by simp)⟩
      | cons r rs => exact ⟨some r, List.mem_append_left _ (by simp)⟩
    · obtain ⟨a, ha⟩ := ih img hmem
      exact ⟨a, List.mem_append_right _ ha⟩

lemma safeName_chars (user_id : Nat) (hex ext : String)
    (hhex : ∀ c ∈ hex.data, c ≠ '/') (hext : ∀ c ∈ ext.data, c ≠ '/') :
    ∀ c ∈ (safeNameOf user_id hex ext).data, c ≠ '/' := by
  intro c hc
  unfold safeNameOf at hc
  simp only [String.data_append, List.mem_append] at hc
  rcases hc with (((hc | hc) | hc) | hc) | hc
  · have huser : ∀ x ∈ "user".data, x ≠ '/' := by decide
    exact huser c hc
  · exact repr_ne_slash user_id c hc
  · have hund : ∀ x ∈ "_".data, x ≠ '/' := by decide
    exact hund c hc
  · exact hhex c hc
  · exact hext c hc

lemma safeName_ne_nil (user_id : Nat) (hex ext : String) :
    (safeNameOf user_id hex ext).data ≠ [] := by
  intro h
  have hlen := congrArg List.length h
  unfold safeNameOf at hlen
  simp [String.data_append] at hlen

lemma get_user_results_ok (cfg : Config) (user_id : Nat) (st : ServerState) (u : User)
    (hu : st.users.find? (fun x => x.id == user_id) = some u) :
    get_user_results cfg user_id st
      = (.ok ((joinRows st.analysisResults
            ((st.images.filter (fun i => i.user_id == user_id)).mergeSort
              (fun a b => decide (b.uploaded_at ≤ a.uploaded_at)))).map
            (fun p => entryOf cfg p.1 p.2)), st) := by
  unfold get_user_results
  rw [hu]
  simp

/-- Every image owned by the user yields at least one listing entry
carrying that image's id and URL (built from the final path component of
the stored path). -/
lemma listing_entry_for_image (cfg : Config) (user_id : Nat) (st : ServerState)
    (u : User) (img : Image)
    (hu : st.users.find? (fun x => x.id == user_id) = some u)
    (hmem : img ∈ st.images) (howner : img.user_id = user_id) :
    ∃ entries, get_user_results cfg user_id st = (.ok entries, st) ∧
      ∃ e ∈ entries, e.image_id = img.id ∧
        e.image_url = cfg.server_base_url ++ "/static/" ++ pathName img.file_path := by
  rw [get_user_results_ok cfg user_id st u hu]
  refine ⟨_, rfl, ?_⟩
  have hmemf : img ∈ st.images.filter (fun i => i.user_id == user_id) :=
    List.mem_filter.mpr ⟨hmem, by simp [howner]⟩
  have hmems := (List.mergeSort_perm
      (st.images.filter (fun i => i.user_id == user_id))
      (fun a b => decide (b.uploaded_at ≤ a.uploaded_at))).mem_iff.mpr hmemf
  obtain ⟨a, hjoin⟩ := joinRows_mem st.analysisResults _ img hmems
  exact ⟨entryOf cfg img a, List.mem_map.mpr ⟨(img, a), hjoin, rfl⟩, rfl, rfl⟩

/-- C10: after a successful upload, listing the uploading user answers
an entry for the fresh image whose image_url is literally the image_url
of the upload response, both being the configured base URL, /static/,
and the final path component of the stored file path.  The hypothesis on
hex records that uuid4().hex never contains a path separator. -/
theorem upload_url_matches_listing (cfg : Config) (user_id : Nat)
    (filename hex : String) (now : Nat) (st : ServerState) (u : User)
    (resp : UploadResponse) (st' : ServerState)
    (hu : st.users.find? (fun x => x.id == user_id) = some u)
    (hext : toLowerStr (pathSuffix filename) ∈ ALLOWED_EXTS)
    (hhex : ∀ c ∈ hex.data, c ≠ '/')
    (hup : upload_image cfg user_id filename hex now st = (.ok resp, st')) :
    ∃ entries, get_user_results cfg user_id st' = (.ok entries, st') ∧
      ∃ e ∈ entries, e.image_id = resp.image_id ∧ e.image_url = resp.image_url ∧
        e.image_url = cfg.server_base_url ++ "/static/"
          ++ safeNameOf user_id hex (toLowerStr (pathSuffix filename)) := by
  have hspec := upload_ok_eq cfg user_id filename hex now st u hu hext
  rw [hspec] at hup
  simp only [Prod.mk.injEq, Except.ok.injEq] at hup
  obtain ⟨hresp, hst⟩ := hup
  subst hst
  subst hresp
  have hextns : ∀ c ∈ (toLowerStr (pathSuffix filename)).data, c ≠ '/' := by
    have hmem := hext
    simp only [ALLOWED_EXTS, List.mem_cons, List.not_mem_nil, or_false] at hmem
    rcases hmem with h | h | h <;> (rw [h]; decide)
  have hsn := safeName_chars user_id hex (toLowerStr (pathSuffix filename)) hhex hextns
  have hsne := safeName_ne_nil user_id hex (toLowerStr (pathSuffix filename))
  have hpn : pathName (UPLOAD_DIR ++ "/" ++ safeNameOf user_id hex (toLowerStr (pathSuffix filename)))
      = safeNameOf user_id hex (toLowerStr (pathSuffix filename)) := by
    unfold pathName
    have hdata : (UPLOAD_DIR ++ "/" ++ safeNameOf user_id hex (toLowerStr (pathSuffix filename))).data
        = "uploads".data ++ '/' :: (safeNameOf user_id hex (toLowerStr (pathSuffix filename))).data := by
      simp only [String.data_append]
      rw [List.append_assoc]
      rfl
    rw [hdata, pathNameChars_append _ _ hsn hsne]
  have hu2 : (({ st with
      files := st.files
        ++ [UPLOAD_DIR ++ "/" ++ safeNameOf user_id hex (toLowerStr (pathSuffix filename))]
      images := st.images
        ++ [⟨nextId (st.images.map (fun i => i.id)), user_id,
             UPLOAD_DIR ++ "/" ++ safeNameOf user_id hex (toLowerStr (pathSuffix filename)),
             now⟩] } : ServerState).users).find? (fun x => x.id == user_id) = some u := hu
  obtain ⟨entries, hlist, e, he, hid, hurl⟩ :=
    listing_entry_for_image cfg user_id _ u
      ⟨nextId (st.images.map (fun i => i.id)), user_id,
       UPLOAD_DIR ++ "/" ++ safeNameOf user_id hex (toLowerStr (pathSuffix filename)), now⟩
      hu2 (List.mem_append_right _ (List.mem_singleton.mpr rfl)) rfl
  refine ⟨entries, hlist, e, he, hid, ?_, ?_⟩
  · rw [hurl]
    show _ ++ pathName (UPLOAD_DIR ++ "/" ++ safeNameOf user_id hex (toLowerStr (pathSuffix filename))) = _
    rw [hpn]
  · rw [hurl]
    show _ ++ pathName (UPLOAD_DIR ++ "/" ++ safeNameOf user_id hex (toLowerStr (pathSuffix filename))) = _
    rw [hpn]

def stC10 : ServerState :=
  ⟨[userW], [⟨1, 1, "uploads/user1_cafebabe.png", 5⟩], [], ["uploads/user1_cafebabe.png"], 0⟩

theorem upload_url_matches_listing_witness :
    (∀ c ∈ "cafebabe".data, c ≠ '/') ∧
    upload_image cfgW 1 "photo.PNG" "cafebabe" 5 stW
      = (.ok ⟨1, "http://localhost:8000/static/user1_cafebabe.png"⟩, stC10) ∧
    ∃ entries, get_user_results cfgW 1 stC10 = (.ok entries, stC10) ∧
      ∃ e ∈ entries,
        e.image_id = (⟨1, "http://localhost:8000/static/user1_cafebabe.png"⟩ : UploadResponse).image_id ∧
        e.image_url = (⟨1, "http://localhost:8000/static/user1_cafebabe.png"⟩ : UploadResponse).image_url ∧
        e.image_url = cfgW.server_base_url ++ "/static/"
          ++ safeNameOf 1 "cafebabe" (toLowerStr (pathSuffix "photo.PNG")) :=
  ⟨by decide, rfl,
    upload_url_matches_listing cfgW 1 "photo.PNG" "cafebabe" 5 stW userW
      ⟨1, "http://localhost:8000/static/user1_cafebabe.png"⟩ stC10
      (by decide) (by decide) (by decide) rfl⟩

end CreativeServer
